import Mathlib

/-!
Shallow embedding of src/src/language_modeling/models/transformer_modules.py
and proofs of the specified properties.

Tensors are embedded as functions out of Fin-indexed axes into the reals;
PyTorch float arithmetic is modelled by exact real arithmetic.  Dropout
layers are modelled as opaque realized maps (stochastic in training mode,
identity in evaluation mode); the claims proved here hold for every
realization.
-/

namespace LM

/-! ## PositionalEncoding

Embeds PositionalEncoding._reset_parameters (transformer_modules.py lines
16-33): dims = 10000 ** ((2 / d_model) * arange(d_model)),
sinusoidal_args = positions / dims, even columns take the sine of the
argument, odd columns the cosine. -/

/-- Embeds sinusoidal_args[pos, dim] = pos / 10000 ** ((2 / d_model) * dim). -/
noncomputable def sinusoidalArg (d_model pos dim : ℕ) : ℝ :=
  (pos : ℝ) / (10000 : ℝ) ^ ((2 / (d_model : ℝ)) * (dim : ℝ))

/-- Embeds the buffer pe: even columns are copied from the sine table, odd
columns from the cosine table, both at their own column index. -/
noncomputable def pe (d_model pos dim : ℕ) : ℝ :=
  if dim % 2 = 0 then Real.sin (sinusoidalArg d_model pos dim)
  else Real.cos (sinusoidalArg d_model pos dim)

/-! ## MultiHeadAttention construction

Embeds MultiHeadAttention.__init__ (lines 40-44): the assert
d_model % num_heads == 0 makes construction fail on non-divisible pairs,
and in Python the expression d_model % num_heads itself raises when
num_heads is zero, which also aborts construction. -/

structure MHAConfig where
  num_heads : ℕ
  d_head : ℕ
  deriving DecidableEq

/-- Embeds MultiHeadAttention.__init__: returns none when construction
fails (assertion failure, or ZeroDivisionError when num_heads = 0). -/
def mhaInit (num_heads d_model : ℕ) : Option MHAConfig :=
  if num_heads = 0 then none
  else if d_model % num_heads = 0 then
    some ⟨num_heads, d_model / num_heads⟩
  else none

/-! ## MultiHeadAttention forward

Embeds MultiHeadAttention._apply_mask and MultiHeadAttention.forward
(lines 65-118).  The query is [batch, seq_len_q, d_model] and the
(optional, defaulting to the query) value is [batch, seq_len_k, d_model]
with d_model = num_heads * d_head. -/

/-- Embeds line 66: the fill constant is -9e15 for float32 logits and
-1e4 for lower precision. -/
noncomputable def largeNegValue (isFloat32 : Bool) : ℝ :=
  if isFloat32 then -(9 * 10 ^ 15) else -(10 ^ 4)

/-- Embeds nn.Linear with weight W and bias b applied to a vector. -/
noncomputable def linearMap {m n : ℕ} (W : Fin m → Fin n → ℝ) (bias : Fin m → ℝ)
    (x : Fin n → ℝ) : Fin m → ℝ :=
  fun i => (∑ j, W i j * x j) + bias i

/-- Learned parameters of one MultiHeadAttention module: the four
projection matrices and their biases, each of size d_model = nh * dh. -/
structure MHAParams (nh dh : ℕ) where
  w_q : Fin (nh * dh) → Fin (nh * dh) → ℝ
  b_q : Fin (nh * dh) → ℝ
  w_k : Fin (nh * dh) → Fin (nh * dh) → ℝ
  b_k : Fin (nh * dh) → ℝ
  w_v : Fin (nh * dh) → Fin (nh * dh) → ℝ
  b_v : Fin (nh * dh) → ℝ
  w_out : Fin (nh * dh) → Fin (nh * dh) → ℝ
  b_out : Fin (nh * dh) → ℝ

/-- Position of head h, inner dimension t, in the flattened
(num_heads head_dim) axis used by the einops rearrange. -/
def headIdx {nh dh : ℕ} (h : Fin nh) (t : Fin dh) : Fin (nh * dh) :=
  ⟨h.val * dh + t.val, by
    have h1 : (h.val + 1) * dh ≤ nh * dh := Nat.mul_le_mul_right dh h.isLt
    have h2 : t.val < dh := t.isLt
    rw [Nat.succ_mul] at h1
    omega⟩

/-- Embeds the rearrange splitting the flattened model axis into
(num_heads, head_dim) and moving heads before positions. -/
noncomputable def headSplit {b s nh dh : ℕ}
    (x : Fin b → Fin s → Fin (nh * dh) → ℝ) :
    Fin b → Fin nh → Fin s → Fin dh → ℝ :=
  fun bi h si t => x bi si (headIdx h t)

/-- Embeds line 108: attention_logits = matmul(q, k transposed) divided by
sqrt of the head dimension. -/
noncomputable def attentionLogits {b nh sq sk dh : ℕ}
    (qh : Fin b → Fin nh → Fin sq → Fin dh → ℝ)
    (kh : Fin b → Fin nh → Fin sk → Fin dh → ℝ) :
    Fin b → Fin nh → Fin sq → Fin sk → ℝ :=
  fun bi h i j => (∑ t, qh bi h i t * kh bi h j t) / Real.sqrt (dh : ℝ)

/-- Embeds _apply_mask (lines 65-75): first masked_fill where the
broadcast padding mask is 0, then masked_fill where the causal mask is 0,
both with the dtype-dependent fill constant. -/
noncomputable def applyMask {b nh sq sk : ℕ} (isFloat32 : Bool)
    (attention_logits : Fin b → Fin nh → Fin sq → Fin sk → ℝ)
    (padding_mask : Option (Fin b → Fin sk → ℝ))
    (causal_mask : Option (Fin sq → Fin sk → ℝ)) :
    Fin b → Fin nh → Fin sq → Fin sk → ℝ :=
  let v := largeNegValue isFloat32
  let l1 : Fin b → Fin nh → Fin sq → Fin sk → ℝ :=
    match padding_mask with
    | none => attention_logits
    | some pm => fun bi h i j => if pm bi j = 0 then v else attention_logits bi h i j
  match causal_mask with
  | none => l1
  | some cm => fun bi h i j => if cm i j = 0 then v else l1 bi h i j

/-- Embeds F.softmax along the last axis. -/
noncomputable def softmax {n : ℕ} (l : Fin n → ℝ) : Fin n → ℝ :=
  fun j => Real.exp (l j) / ∑ k, Real.exp (l k)

/-- Raw (pre-mask) attention logits of MultiHeadAttention.forward: the
query and value are projected by w_q and w_k, split into heads, and
combined by scaled dot product. -/
noncomputable def mhaLogits {b nh sq sk dh : ℕ} (p : MHAParams nh dh)
    (query : Fin b → Fin sq → Fin (nh * dh) → ℝ)
    (value : Fin b → Fin sk → Fin (nh * dh) → ℝ) :
    Fin b → Fin nh → Fin sq → Fin sk → ℝ :=
  attentionLogits
    (headSplit (fun bi si => linearMap p.w_q p.b_q (query bi si)))
    (headSplit (fun bi si => linearMap p.w_k p.b_k (value bi si)))

/-- Post-softmax attention weights of MultiHeadAttention.forward
(line 111), of shape [batch, num_heads, seq_len_q, seq_len_k]. -/
noncomputable def mhaWeights {b nh sq sk dh : ℕ} (isFloat32 : Bool)
    (p : MHAParams nh dh)
    (query : Fin b → Fin sq → Fin (nh * dh) → ℝ)
    (value : Fin b → Fin sk → Fin (nh * dh) → ℝ)
    (padding_mask : Option (Fin b → Fin sk → ℝ))
    (causal_mask : Option (Fin sq → Fin sk → ℝ)) :
    Fin b → Fin nh → Fin sq → Fin sk → ℝ :=
  fun bi h i =>
    softmax (applyMask isFloat32 (mhaLogits p query value)
      padding_mask causal_mask bi h i)

theorem dh_pos_of_fin {nh dh : ℕ} (m : Fin (nh * dh)) : 0 < dh := by
  rcases Nat.eq_zero_or_pos dh with hd | hd
  · subst hd
    exact absurd m.isLt (by simp)
  · exact hd

/-- Embeds the rearrange merging (num_heads, head_dim) back into the
flattened model axis (lines 114-115). -/
noncomputable def headMerge {b s nh dh : ℕ}
    (o : Fin b → Fin nh → Fin s → Fin dh → ℝ) :
    Fin b → Fin s → Fin (nh * dh) → ℝ :=
  fun bi si m =>
    o bi ⟨m.val / dh, (Nat.div_lt_iff_lt_mul (dh_pos_of_fin m)).mpr m.isLt⟩
      si ⟨m.val % dh, Nat.mod_lt _ (dh_pos_of_fin m)⟩

/-- Embeds MultiHeadAttention.forward (lines 77-118) with an explicit
value input; returns the projected output and the attention weights. -/
noncomputable def mhaForward {b nh sq sk dh : ℕ} (isFloat32 : Bool)
    (p : MHAParams nh dh)
    (query : Fin b → Fin sq → Fin (nh * dh) → ℝ)
    (value : Fin b → Fin sk → Fin (nh * dh) → ℝ)
    (padding_mask : Option (Fin b → Fin sk → ℝ))
    (causal_mask : Option (Fin sq → Fin sk → ℝ)) :
    (Fin b → Fin sq → Fin (nh * dh) → ℝ) ×
      (Fin b → Fin nh → Fin sq → Fin sk → ℝ) :=
  let weights := mhaWeights isFloat32 p query value padding_mask causal_mask
  let vh := headSplit (fun bi si => linearMap p.w_v p.b_v (value bi si))
  let o : Fin b → Fin nh → Fin sq → Fin dh → ℝ :=
    fun bi h i t => ∑ j, weights bi h i j * vh bi h j t
  (fun bi si => linearMap p.w_out p.b_out (headMerge o bi si), weights)

/-- Embeds the value-is-None default of forward: self-attention, with the
value equal to the query. -/
noncomputable def mhaSelfForward {b s nh dh : ℕ} (isFloat32 : Bool)
    (p : MHAParams nh dh)
    (query : Fin b → Fin s → Fin (nh * dh) → ℝ)
    (padding_mask : Option (Fin b → Fin s → ℝ))
    (causal_mask : Option (Fin s → Fin s → ℝ)) :
    (Fin b → Fin s → Fin (nh * dh) → ℝ) ×
      (Fin b → Fin nh → Fin s → Fin s → ℝ) :=
  mhaForward isFloat32 p query query padding_mask causal_mask

theorem softmax_sum_eq_one {n : ℕ} (hn : 0 < n) (l : Fin n → ℝ) :
    ∑ j, softmax l j = 1 := by
  unfold softmax
  have hpos : 0 < ∑ k, Real.exp (l k) :=
    Finset.sum_pos (fun k _ => Real.exp_pos (l k)) ⟨⟨0, hn⟩, Finset.mem_univ _⟩
  rw [← Finset.sum_div, div_self (ne_of_gt hpos)]

/-! ## EncoderBlock

Embeds EncoderBlock (lines 121-146).  Dropout layers are modelled as
opaque realized maps bundled per block; nn.LayerNorm is embedded with its
learned affine parameters and epsilon. -/

/-- Embeds nn.LayerNorm over the last axis: normalize by the mean and
biased variance, then apply the learned affine map. -/
noncomputable def layerNorm {d : ℕ} (w bias : Fin d → ℝ) (eps : ℝ)
    (v : Fin d → ℝ) : Fin d → ℝ :=
  let mu := (∑ u, v u) / (d : ℝ)
  let var := (∑ u, (v u - mu) ^ 2) / (d : ℝ)
  fun k => w k * ((v k - mu) / Real.sqrt (var + eps)) + bias k

/-- Embeds nn.LayerNorm applied per batch element and position. -/
noncomputable def layerNorm3 {b s d : ℕ} (w bias : Fin d → ℝ) (eps : ℝ)
    (x : Fin b → Fin s → Fin d → ℝ) : Fin b → Fin s → Fin d → ℝ :=
  fun bi si => layerNorm w bias eps (x bi si)

/-- Embeds nn.ReLU. -/
noncomputable def relu (x : ℝ) : ℝ := max x 0

/-- Realized dropout maps of one EncoderBlock: dropout1 and dropout2 on
the model axis and the inner dropout of the feed-forward stack. -/
structure DropoutMaps (b s dm dff : ℕ) where
  d1 : (Fin b → Fin s → Fin dm → ℝ) → Fin b → Fin s → Fin dm → ℝ
  d2 : (Fin b → Fin s → Fin dm → ℝ) → Fin b → Fin s → Fin dm → ℝ
  inner : (Fin b → Fin s → Fin dff → ℝ) → Fin b → Fin s → Fin dff → ℝ

/-- Embeds the pff Sequential stack (lines 128-133): Linear(d_model,
d_ff), Dropout, ReLU, Linear(d_ff, d_model), in that order. -/
noncomputable def pffForward {b s dm dff : ℕ}
    (W1 : Fin dff → Fin dm → ℝ) (b1 : Fin dff → ℝ)
    (W2 : Fin dm → Fin dff → ℝ) (b2 : Fin dm → ℝ)
    (dropInner : (Fin b → Fin s → Fin dff → ℝ) → Fin b → Fin s → Fin dff → ℝ)
    (x : Fin b → Fin s → Fin dm → ℝ) : Fin b → Fin s → Fin dm → ℝ :=
  let h1 : Fin b → Fin s → Fin dff → ℝ := fun bi si => linearMap W1 b1 (x bi si)
  let h2 := dropInner h1
  let h3 : Fin b → Fin s → Fin dff → ℝ := fun bi si u => relu (h2 bi si u)
  fun bi si => linearMap W2 b2 (h3 bi si)

/-- Learned parameters of one EncoderBlock: its attention module, the two
layer norms and the two feed-forward linear layers. -/
structure EncoderBlockParams (nh dh dff : ℕ) where
  attn : MHAParams nh dh
  ln1_w : Fin (nh * dh) → ℝ
  ln1_b : Fin (nh * dh) → ℝ
  ln2_w : Fin (nh * dh) → ℝ
  ln2_b : Fin (nh * dh) → ℝ
  pff_w1 : Fin dff → Fin (nh * dh) → ℝ
  pff_b1 : Fin dff → ℝ
  pff_w2 : Fin (nh * dh) → Fin dff → ℝ
  pff_b2 : Fin (nh * dh) → ℝ

/-- Embeds EncoderBlock.forward (lines 137-146), parametrized by the
attention function so that the discarding of its second component (the
attention weights) is explicit: attended_x is the first component of the
attention result, the second is dropped. -/
noncomputable def encoderBlockForward {b s nh dh dff : ℕ}
    (p : EncoderBlockParams nh dh dff) (dmaps : DropoutMaps b s (nh * dh) dff)
    (eps : ℝ)
    (att : (Fin b → Fin s → Fin (nh * dh) → ℝ) →
      (Fin b → Fin s → Fin (nh * dh) → ℝ) × (Fin b → Fin nh → Fin s → Fin s → ℝ))
    (x : Fin b → Fin s → Fin (nh * dh) → ℝ) :
    Fin b → Fin s → Fin (nh * dh) → ℝ :=
  let attended := (att x).1
  let x1 := layerNorm3 p.ln1_w p.ln1_b eps (x + dmaps.d1 attended)
  let px := pffForward p.pff_w1 p.pff_b1 p.pff_w2 p.pff_b2 dmaps.inner x1
  layerNorm3 p.ln2_w p.ln2_b eps (x1 + dmaps.d2 px)

/-- Embeds EncoderBlock.forward with its own MultiHeadAttention in
self-attention mode, as called with (x, causal_mask, mask). -/
noncomputable def encoderBlockForwardFull {b s nh dh dff : ℕ} (isFloat32 : Bool)
    (p : EncoderBlockParams nh dh dff) (dmaps : DropoutMaps b s (nh * dh) dff)
    (eps : ℝ)
    (x : Fin b → Fin s → Fin (nh * dh) → ℝ)
    (causal_mask : Option (Fin s → Fin s → ℝ))
    (mask : Option (Fin b → Fin s → ℝ)) :
    Fin b → Fin s → Fin (nh * dh) → ℝ :=
  encoderBlockForward p dmaps eps
    (fun y => mhaSelfForward isFloat32 p.attn y mask causal_mask) x

/-! ## Encoder

Embeds Encoder (lines 149-166).  The buffer causal_mask_tensor is
registered only when causal_mask is true, yet forward reads it
unconditionally; the failing attribute access is modelled by an Option
result. -/

/-- Embeds line 158: 1 - triu(ones(seq_len, seq_len), diagonal=1). -/
noncomputable def causalMaskTensor (s : ℕ) : Fin s → Fin s → ℝ :=
  fun i j => 1 - (if i.val + 1 ≤ j.val then 1 else 0)

/-- State of a constructed Encoder: the blocks (each with d_ff equal to
2 * d_model), the causal flag and the optionally registered buffer. -/
structure EncoderParams (nh dh s : ℕ) where
  blocks : List (EncoderBlockParams nh dh (2 * (nh * dh)))
  causal_mask : Bool
  causal_mask_tensor : Option (Fin s → Fin s → ℝ)

/-- Embeds Encoder.__init__ (lines 150-160). -/
noncomputable def encoderInit {nh dh : ℕ}
    (blocks : List (EncoderBlockParams nh dh (2 * (nh * dh))))
    (s : ℕ) (causal_mask : Bool) : EncoderParams nh dh s :=
  { blocks := blocks
    causal_mask := causal_mask
    causal_mask_tensor :=
      if causal_mask then some (causalMaskTensor s) else none }

/-- Runs the block list in order, block i with its own realized dropout
maps, with the attention function of each block built by attOf from its
learned attention parameters. -/
noncomputable def encoderBlocksRunWith {b s nh dh dff : ℕ}
    (attOf : MHAParams nh dh → (Fin b → Fin s → Fin (nh * dh) → ℝ) →
      (Fin b → Fin s → Fin (nh * dh) → ℝ) × (Fin b → Fin nh → Fin s → Fin s → ℝ))
    (eps : ℝ) (drops : ℕ → DropoutMaps b s (nh * dh) dff) :
    ℕ → List (EncoderBlockParams nh dh dff) →
      (Fin b → Fin s → Fin (nh * dh) → ℝ) → Fin b → Fin s → Fin (nh * dh) → ℝ
  | _, [], x => x
  | i, p :: rest, x =>
      encoderBlocksRunWith attOf eps drops (i + 1) rest
        (encoderBlockForward p (drops i) eps (attOf p.attn) x)

/-- Embeds Encoder.forward (lines 162-166): reads the causal_mask_tensor
attribute (none models the AttributeError when the buffer was never
registered) and threads x through every block with that tensor and the
caller-supplied padding mask. -/
noncomputable def encoderForward {b s nh dh : ℕ} (isFloat32 : Bool)
    (p : EncoderParams nh dh s) (eps : ℝ)
    (drops : ℕ → DropoutMaps b s (nh * dh) (2 * (nh * dh)))
    (x : Fin b → Fin s → Fin (nh * dh) → ℝ)
    (mask : Option (Fin b → Fin s → ℝ)) :
    Option (Fin b → Fin s → Fin (nh * dh) → ℝ) :=
  match p.causal_mask_tensor with
  | none => none
  | some cm =>
      some (encoderBlocksRunWith
        (fun ap y => mhaSelfForward isFloat32 ap y mask (some cm))
        eps drops 0 p.blocks x)

/-! ## Embedding

Embeds Embedding (lines 169-180) and, for the padding invariant, the
documented gradient semantics of nn.Embedding with padding_idx = 0: the
lookup primitive blocks the gradient to the padding row, so the optimizer
sees gradient zero there, and initialization zeroes that row. -/

/-- Embeds the buffer pe of shape [seq_length, d_model] (the leading
broadcast axis of size 1 is left implicit). -/
noncomputable def peBuffer (seq_length d_model : ℕ) :
    Fin seq_length → Fin d_model → ℝ :=
  fun pos dim => pe d_model pos.val dim.val

/-- Embeds PositionalEncoding.forward (lines 35-36): the first s rows of
the buffer; the proof argument embeds the shape requirement s <=
seq_length under which the slice has s rows. -/
noncomputable def positionalEncodingForward {s : ℕ} (seq_length d_model : ℕ)
    (h : s ≤ seq_length) : Fin s → Fin d_model → ℝ :=
  fun si => peBuffer seq_length d_model (Fin.castLE h si)

/-- Embeds Embedding.forward (lines 179-180): table lookup plus the
positional slice, the latter broadcast over the batch axis. -/
noncomputable def embeddingForward {b s vocab d_model : ℕ} (seq_length : ℕ)
    (h : s ≤ seq_length)
    (table : Fin vocab → Fin d_model → ℝ)
    (ids : Fin b → Fin s → Fin vocab) :
    Fin b → Fin s → Fin d_model → ℝ :=
  fun bi si k =>
    table (ids bi si) k + positionalEncodingForward seq_length d_model h si k

/-- Embeds the gradient masking of nn.Embedding with padding_idx = 0: the
gradient reaching the optimizer is zero at row 0. -/
noncomputable def paddingGrad {vocab d_model : ℕ}
    (g : Fin vocab → Fin d_model → ℝ) : Fin vocab → Fin d_model → ℝ :=
  fun r k => if r.val = 0 then 0 else g r k

/-- One gradient-descent update of the embedding table with learning rate
lr on the padding-masked gradient. -/
noncomputable def sgdStep {vocab d_model : ℕ} (lr : ℝ)
    (W g : Fin vocab → Fin d_model → ℝ) : Fin vocab → Fin d_model → ℝ :=
  fun r k => W r k - lr * paddingGrad g r k

/-- A sequence of optimizer update steps, each with its own learning rate
and gradient. -/
noncomputable def sgdSteps {vocab d_model : ℕ}
    (steps : List (ℝ × (Fin vocab → Fin d_model → ℝ)))
    (W : Fin vocab → Fin d_model → ℝ) : Fin vocab → Fin d_model → ℝ :=
  steps.foldl (fun acc st => sgdStep st.1 acc st.2) W

/-! ## Helper lemmas -/

theorem applyMask_none_some {b nh sq sk : ℕ} (isFloat32 : Bool)
    (l : Fin b → Fin nh → Fin sq → Fin sk → ℝ) (cm : Fin sq → Fin sk → ℝ)
    (bi : Fin b) (h : Fin nh) (i : Fin sq) (j : Fin sk) :
    applyMask isFloat32 l none (some cm) bi h i j =
      if cm i j = 0 then largeNegValue isFloat32 else l bi h i j := rfl

theorem softmax_le_exp_sub {n : ℕ} (l : Fin n → ℝ) (j m : Fin n) :
    softmax l j ≤ Real.exp (l j - l m) := by
  have hS : Real.exp (l m) ≤ ∑ k, Real.exp (l k) :=
    Finset.single_le_sum (fun k _ => le_of_lt (Real.exp_pos _))
      (Finset.mem_univ m)
  calc softmax l j = Real.exp (l j) / ∑ k, Real.exp (l k) := rfl
    _ ≤ Real.exp (l j) / Real.exp (l m) :=
        div_le_div_of_nonneg_left (le_of_lt (Real.exp_pos _))
          (Real.exp_pos _) hS
    _ = Real.exp (l j - l m) := (Real.exp_sub _ _).symm

theorem blockForward_att_fst_congr {b s nh dh dff : ℕ}
    (p : EncoderBlockParams nh dh dff) (dmaps : DropoutMaps b s (nh * dh) dff)
    (eps : ℝ)
    (att1 att2 : (Fin b → Fin s → Fin (nh * dh) → ℝ) →
      (Fin b → Fin s → Fin (nh * dh) → ℝ) × (Fin b → Fin nh → Fin s → Fin s → ℝ))
    (hfst : ∀ y, (att1 y).1 = (att2 y).1)
    (x : Fin b → Fin s → Fin (nh * dh) → ℝ) :
    encoderBlockForward p dmaps eps att1 x =
      encoderBlockForward p dmaps eps att2 x := by
  unfold encoderBlockForward
  rw [hfst x]

theorem blocksRunWith_att_fst_congr {b s nh dh dff : ℕ}
    (attOf1 attOf2 : MHAParams nh dh → (Fin b → Fin s → Fin (nh * dh) → ℝ) →
      (Fin b → Fin s → Fin (nh * dh) → ℝ) × (Fin b → Fin nh → Fin s → Fin s → ℝ))
    (hfst : ∀ ap y, (attOf1 ap y).1 = (attOf2 ap y).1)
    (eps : ℝ) (drops : ℕ → DropoutMaps b s (nh * dh) dff)
    (i : ℕ) (blocks : List (EncoderBlockParams nh dh dff))
    (x : Fin b → Fin s → Fin (nh * dh) → ℝ) :
    encoderBlocksRunWith attOf1 eps drops i blocks x =
      encoderBlocksRunWith attOf2 eps drops i blocks x := by
  induction blocks generalizing i x with
  | nil => rfl
  | cons p rest ih =>
      show encoderBlocksRunWith attOf1 eps drops (i + 1) rest
          (encoderBlockForward p (drops i) eps (attOf1 p.attn) x) = _
      rw [blockForward_att_fst_congr p (drops i) eps _ _ (hfst p.attn) x]
      exact ih _ _

/-! ## Claims -/

/-- C1: for every construction with parameters seq_length and d_model, the
table pe is deterministic (it is a function of its parameters alone), and
for every position and every even column dim,
pe[pos, dim] = sin(pos / 10000 ^ (2 * dim / d_model)), while for every odd
column dim, pe[pos, dim] = cos(pos / 10000 ^ (2 * dim / d_model)): each
column uses its own index in the frequency exponent. -/
theorem c1_positional_encoding_formula (d_model seq_length pos dim : ℕ)
    (hpos : pos < seq_length) :
    (dim % 2 = 0 →
      pe d_model pos dim =
        Real.sin ((pos : ℝ) / (10000 : ℝ) ^ ((2 * (dim : ℝ)) / (d_model : ℝ)))) ∧
    (dim % 2 = 1 →
      pe d_model pos dim =
        Real.cos ((pos : ℝ) / (10000 : ℝ) ^ ((2 * (dim : ℝ)) / (d_model : ℝ)))) := by
  constructor
  · intro h
    unfold pe sinusoidalArg
    rw [if_pos h, div_mul_eq_mul_div]
  · intro h
    have h0 : ¬ dim % 2 = 0 := by omega
    unfold pe sinusoidalArg
    rw [if_neg h0, div_mul_eq_mul_div]

/-- Witness for C1 at d_model = 4, seq_length = 3, pos = 1, dim = 2. -/
theorem c1_positional_encoding_formula_witness :
    pe 4 1 2 =
      Real.sin (((1 : ℕ) : ℝ) /
        (10000 : ℝ) ^ ((2 * ((2 : ℕ) : ℝ)) / ((4 : ℕ) : ℝ))) :=
  (c1_positional_encoding_formula 4 3 1 2 (by decide)).1 (by decide)

/-- C6: construction of MultiHeadAttention fails, before any forward call,
exactly when d_model % num_heads is nonzero; in particular d_model = 10
with num_heads = 3 fails, and every evenly divisible pair succeeds. -/
theorem c6_mha_init_fails_iff_not_divisible :
    (∀ num_heads d_model : ℕ, 1 ≤ num_heads →
      (mhaInit num_heads d_model = none ↔ d_model % num_heads ≠ 0)) ∧
    mhaInit 3 10 = none := by
  constructor
  · intro nh dm hnh
    unfold mhaInit
    rw [if_neg (by omega)]
    by_cases h : dm % nh = 0
    · simp [h]
    · simp [h]
  · decide

/-- Witness for C6 at num_heads = 2, d_model = 8 (divisible, so
construction succeeds). -/
theorem c6_mha_init_fails_iff_not_divisible_witness :
    ¬ mhaInit 2 8 = none := fun h =>
  ((c6_mha_init_fails_iff_not_divisible.1 2 8 (by decide)).mp h) (by decide)

/-- C3: the raw attention logits equal the head-split projected query
times the transposed head-split projected key, divided by sqrt(d_head);
and after _apply_mask, every logit at a position where the padding mask is
0 (broadcast over heads and query positions) or the causal mask is 0
equals the large negative constant, the suppressed set being the union of
the two conditions, while all other logits are unchanged. -/
theorem c3_logits_and_mask_union {b nh sq sk dh : ℕ} (isFloat32 : Bool)
    (p : MHAParams nh dh)
    (query : Fin b → Fin sq → Fin (nh * dh) → ℝ)
    (value : Fin b → Fin sk → Fin (nh * dh) → ℝ)
    (pm : Fin b → Fin sk → ℝ) (cm : Fin sq → Fin sk → ℝ)
    (bi : Fin b) (h : Fin nh) (i : Fin sq) (j : Fin sk) :
    mhaLogits p query value bi h i j =
      (∑ t, headSplit (fun bi2 si => linearMap p.w_q p.b_q (query bi2 si)) bi h i t *
            headSplit (fun bi2 si => linearMap p.w_k p.b_k (value bi2 si)) bi h j t) /
        Real.sqrt (dh : ℝ) ∧
    applyMask isFloat32 (mhaLogits p query value) (some pm) (some cm) bi h i j =
      if pm bi j = 0 ∨ cm i j = 0 then largeNegValue isFloat32
      else mhaLogits p query value bi h i j := by
  constructor
  · rfl
  · unfold applyMask
    by_cases hc : cm i j = 0
    · simp [hc]
    · by_cases hp : pm bi j = 0 <;> simp [hc, hp]

/-- C4: the attention-weight matrix returned by forward has shape
[batch, num_heads, seq_len_q, seq_len_k] (the type of mhaWeights), and
every row sums to exactly 1 along the key axis, for every query position
and in particular for every unmasked one. -/
theorem c4_weight_rows_sum_to_one {b nh sq sk dh : ℕ} (isFloat32 : Bool)
    (p : MHAParams nh dh) (hsk : 0 < sk)
    (query : Fin b → Fin sq → Fin (nh * dh) → ℝ)
    (value : Fin b → Fin sk → Fin (nh * dh) → ℝ)
    (padding_mask : Option (Fin b → Fin sk → ℝ))
    (causal_mask : Option (Fin sq → Fin sk → ℝ))
    (bi : Fin b) (h : Fin nh) (i : Fin sq) :
    ∑ j, mhaWeights isFloat32 p query value padding_mask causal_mask bi h i j = 1 := by
  unfold mhaWeights
  exact softmax_sum_eq_one hsk _

/-- Witness for C4 with batch = num_heads = d_head = 1, both sequence
lengths 1, zero parameters and zero inputs, no masks. -/
theorem c4_weight_rows_sum_to_one_witness :
    ∑ j, @mhaWeights 1 1 1 1 1 false
      ⟨fun _ _ => 0, fun _ => 0, fun _ _ => 0, fun _ => 0,
       fun _ _ => 0, fun _ => 0, fun _ _ => 0, fun _ => 0⟩
      (fun _ _ _ => 0) (fun _ _ _ => 0) none none 0 0 0 j = 1 :=
  c4_weight_rows_sum_to_one false _ (by decide) _ _ none none 0 0 0

/-- C2 fails on the code: with causal mode disabled the buffer
causal_mask_tensor is never registered (init, lines 156-160), yet forward
reads it unconditionally (line 164), so every forward call fails with an
AttributeError instead of completing bidirectionally; in the embedding
the forward of a causal_mask = false Encoder is none for every input. -/
theorem c2_noncausal_forward_fails {b s nh dh : ℕ} (isFloat32 : Bool)
    (blocks : List (EncoderBlockParams nh dh (2 * (nh * dh)))) (eps : ℝ)
    (drops : ℕ → DropoutMaps b s (nh * dh) (2 * (nh * dh)))
    (x : Fin b → Fin s → Fin (nh * dh) → ℝ)
    (mask : Option (Fin b → Fin s → ℝ)) :
    encoderForward isFloat32 (encoderInit blocks s false) eps drops x mask
      = none := rfl

/-- C5: the causal mask built at construction has entry (i, j) equal to 1
exactly when j <= i and 0 otherwise; and for every masked entry (i < j)
the returned attention weight is at most any epsilon > 0 as soon as the
large negative constant is below the diagonal logit plus log epsilon, so
the weight mass beyond column i is numerically negligible regardless of
the learned weights. -/
theorem c5_causal_mask_and_support {b s nh dh : ℕ} :
    (∀ i j : Fin s,
      causalMaskTensor s i j = if j.val ≤ i.val then 1 else 0) ∧
    (∀ (isFloat32 : Bool) (p : MHAParams nh dh)
      (query : Fin b → Fin s → Fin (nh * dh) → ℝ)
      (bi : Fin b) (h : Fin nh) (i j : Fin s) (eps : ℝ),
      i.val < j.val → 0 < eps →
      largeNegValue isFloat32 ≤ mhaLogits p query query bi h i i + Real.log eps →
      mhaWeights isFloat32 p query query none (some (causalMaskTensor s))
        bi h i j ≤ eps) := by
  constructor
  · intro i j
    unfold causalMaskTensor
    by_cases hij : i.val + 1 ≤ j.val
    · rw [if_pos hij, if_neg (by omega)]
      norm_num
    · rw [if_neg hij, if_pos (by omega)]
      norm_num
  · intro isFloat32 p query bi h i j eps hij heps hbound
    have hcm0 : causalMaskTensor s i j = 0 := by
      unfold causalMaskTensor
      rw [if_pos (by omega)]
      norm_num
    have hcm1 : ¬ causalMaskTensor s i i = 0 := by
      unfold causalMaskTensor
      rw [if_neg (by omega)]
      norm_num
    have hrow :
        mhaWeights isFloat32 p query query none (some (causalMaskTensor s))
            bi h i j =
          softmax (applyMask isFloat32 (mhaLogits p query query) none
            (some (causalMaskTensor s)) bi h i) j := rfl
    rw [hrow]
    have hj : applyMask isFloat32 (mhaLogits p query query) none
        (some (causalMaskTensor s)) bi h i j = largeNegValue isFloat32 := by
      rw [applyMask_none_some, if_pos hcm0]
    have hi : applyMask isFloat32 (mhaLogits p query query) none
        (some (causalMaskTensor s)) bi h i i = mhaLogits p query query bi h i i := by
      rw [applyMask_none_some, if_neg hcm1]
    calc softmax (applyMask isFloat32 (mhaLogits p query query) none
          (some (causalMaskTensor s)) bi h i) j
        ≤ Real.exp
            (applyMask isFloat32 (mhaLogits p query query) none
              (some (causalMaskTensor s)) bi h i j -
             applyMask isFloat32 (mhaLogits p query query) none
              (some (causalMaskTensor s)) bi h i i) :=
          softmax_le_exp_sub _ j i
      _ = Real.exp (largeNegValue isFloat32 -
            mhaLogits p query query bi h i i) := by rw [hj, hi]
      _ ≤ Real.exp (Real.log eps) := Real.exp_le_exp.mpr (by linarith)
      _ = eps := Real.exp_log heps

/-- Witness for C5 with s = 2, zero parameters and zero query, query
position 0, key position 1, and epsilon the exponential of the fill
constant. -/
theorem c5_causal_mask_and_support_witness :
    @mhaWeights 1 1 2 2 1 true
      ⟨fun _ _ => 0, fun _ => 0, fun _ _ => 0, fun _ => 0,
       fun _ _ => 0, fun _ => 0, fun _ _ => 0, fun _ => 0⟩
      (fun _ _ _ => 0) (fun _ _ _ => 0) none (some (causalMaskTensor 2))
      0 0 0 1 ≤ Real.exp (largeNegValue true) := by
  have hlog : @mhaLogits 1 1 2 2 1
      ⟨fun _ _ => 0, fun _ => 0, fun _ _ => 0, fun _ => 0,
       fun _ _ => 0, fun _ => 0, fun _ _ => 0, fun _ => 0⟩
      (fun _ _ _ => 0) (fun _ _ _ => 0) 0 0 0 0 = 0 := by
    simp [mhaLogits, attentionLogits, headSplit, linearMap]
  exact (@c5_causal_mask_and_support 1 2 1 1).2 true _ _ 0 0 0 1
    (Real.exp (largeNegValue true)) (by decide) (Real.exp_pos _)
    (by rw [hlog, Real.log_exp]; linarith)

/-- C7: EncoderBlock.forward computes exactly the composition stated by
the spec, with the ReLU after the inner dropout and before the second
linear layer; the output has the same index types (hence the same shape)
as the input. -/
noncomputable def specEncoderBlockForward {b s nh dh dff : ℕ} (isFloat32 : Bool)
    (p : EncoderBlockParams nh dh dff) (dmaps : DropoutMaps b s (nh * dh) dff)
    (eps : ℝ)
    (x : Fin b → Fin s → Fin (nh * dh) → ℝ)
    (causal_mask : Option (Fin s → Fin s → ℝ))
    (padding_mask : Option (Fin b → Fin s → ℝ)) :
    Fin b → Fin s → Fin (nh * dh) → ℝ :=
  let x1 := layerNorm3 p.ln1_w p.ln1_b eps
    (x + dmaps.d1 (mhaSelfForward isFloat32 p.attn x padding_mask causal_mask).1)
  layerNorm3 p.ln2_w p.ln2_b eps
    (x1 + dmaps.d2 (fun bi si => linearMap p.pff_w2 p.pff_b2
      (fun u => relu (dmaps.inner
        (fun bi2 si2 => linearMap p.pff_w1 p.pff_b1 (x1 bi2 si2)) bi si u))))

/-- C7: the embedded EncoderBlock.forward equals the formula of the spec,
LayerNorm(x1 + Dropout(Linear2(ReLU(Dropout(Linear1 x1))))) applied after
x1 = LayerNorm(x + Dropout(SelfAttention(x, causal_mask, padding_mask))). -/
theorem c7_encoder_block_formula {b s nh dh dff : ℕ} (isFloat32 : Bool)
    (p : EncoderBlockParams nh dh dff) (dmaps : DropoutMaps b s (nh * dh) dff)
    (eps : ℝ)
    (x : Fin b → Fin s → Fin (nh * dh) → ℝ)
    (causal_mask : Option (Fin s → Fin s → ℝ))
    (mask : Option (Fin b → Fin s → ℝ)) :
    encoderBlockForwardFull isFloat32 p dmaps eps x causal_mask mask =
      specEncoderBlockForward isFloat32 p dmaps eps x causal_mask mask := rfl

/-- C8: Embedding.forward returns the token-table lookup of the ids plus
the first seq_len rows of the precomputed positional table, and the
positional summand is broadcast over the batch axis (it does not depend
on the batch index). -/
theorem c8_embedding_forward {b s vocab d_model : ℕ} (seq_length : ℕ)
    (h : s ≤ seq_length)
    (table : Fin vocab → Fin d_model → ℝ)
    (ids : Fin b → Fin s → Fin vocab)
    (bi : Fin b) (si : Fin s) (k : Fin d_model) :
    embeddingForward seq_length h table ids bi si k =
      table (ids bi si) k + pe d_model si.val k.val ∧
    (∀ bi2 : Fin b,
      embeddingForward seq_length h table ids bi si k - table (ids bi si) k =
        embeddingForward seq_length h table ids bi2 si k -
          table (ids bi2 si) k) := by
  constructor
  · rfl
  · intro bi2
    unfold embeddingForward
    ring

/-- Witness for C8 with seq_length = 2, one-token batch of length 1, a
zero table. -/
theorem c8_embedding_forward_witness :
    @embeddingForward 1 1 1 1 2 (by decide)
      (fun _ _ => (0 : ℝ)) (fun _ _ => 0) 0 0 0 =
      (fun _ _ => (0 : ℝ)) ((fun _ _ => (0 : Fin 1)) (0 : Fin 1) (0 : Fin 1))
          (0 : Fin 1) +
        pe 1 (0 : Fin 1).val (0 : Fin 1).val :=
  (@c8_embedding_forward 1 1 1 1 2 (by decide) (fun _ _ => (0 : ℝ))
    (fun _ _ => 0) 0 0 0).1

/-- C9: with padding enabled the embedding row for token id 0 starts as
the zero vector and, since the lookup primitive blocks the gradient to
that row, it remains the zero vector after any number of optimizer update
steps. -/
theorem c9_padding_row_stays_zero {vocab d_model : ℕ} (hv : 0 < vocab)
    (steps : List (ℝ × (Fin vocab → Fin d_model → ℝ)))
    (W0 : Fin vocab → Fin d_model → ℝ)
    (h0 : ∀ k, W0 ⟨0, hv⟩ k = 0) (k : Fin d_model) :
    sgdSteps steps W0 ⟨0, hv⟩ k = 0 := by
  induction steps generalizing W0 with
  | nil => exact h0 k
  | cons st rest ih =>
      have h1 : ∀ k2, sgdStep st.1 W0 st.2 ⟨0, hv⟩ k2 = 0 := by
        intro k2
        unfold sgdStep paddingGrad
        simp [h0 k2]
      exact ih (sgdStep st.1 W0 st.2) h1

/-- Witness for C9 with a one-row table, a zero initial table and one
update step with learning rate 1 and constant gradient 5. -/
theorem c9_padding_row_stays_zero_witness :
    @sgdSteps 1 1
      [((1 : ℝ), fun _ _ => (5 : ℝ))] (fun _ _ => 0) ⟨0, Nat.one_pos⟩ 0 = 0 :=
  c9_padding_row_stays_zero Nat.one_pos _ _ (fun _ => rfl) 0

/-- C10: the hidden state returned by Encoder.forward is computable with
the attention-weight component of every block replaced by an arbitrary
function, so the per-head attention weights produced inside
EncoderBlock.forward are discarded and unobservable through the Encoder
interface, which returns only the final hidden-state tensor. -/
theorem c10_attention_weights_unobservable {b s nh dh : ℕ} (isFloat32 : Bool)
    (eps : ℝ) (drops : ℕ → DropoutMaps b s (nh * dh) (2 * (nh * dh)))
    (x : Fin b → Fin s → Fin (nh * dh) → ℝ)
    (mask : Option (Fin b → Fin s → ℝ))
    (p : EncoderParams nh dh s) (cm : Fin s → Fin s → ℝ)
    (hcm : p.causal_mask_tensor = some cm)
    (wOf : MHAParams nh dh → (Fin b → Fin s → Fin (nh * dh) → ℝ) →
      Fin b → Fin nh → Fin s → Fin s → ℝ) :
    encoderForward isFloat32 p eps drops x mask =
      some (encoderBlocksRunWith
        (fun ap y => ((mhaSelfForward isFloat32 ap y mask (some cm)).1, wOf ap y))
        eps drops 0 p.blocks x) := by
  unfold encoderForward
  rw [hcm]
  exact congrArg some
    (blocksRunWith_att_fst_congr
      (fun ap y => mhaSelfForward isFloat32 ap y mask (some cm))
      (fun ap y => ((mhaSelfForward isFloat32 ap y mask (some cm)).1, wOf ap y))
      (fun ap y => rfl) eps drops 0 p.blocks x)

/-- Witness for C10 with an empty block list, a registered causal buffer
of size 1 and a constant replacement weight function. -/
theorem c10_attention_weights_unobservable_witness :
    @encoderForward 1 1 1 1 true
      ⟨[], true, some (causalMaskTensor 1)⟩ 0 (fun _ => ⟨id, id, id⟩)
      (fun _ _ _ => 0) none =
      some (@encoderBlocksRunWith 1 1 1 1 (2 * (1 * 1))
        (fun ap y =>
          ((mhaSelfForward true ap y none (some (causalMaskTensor 1))).1,
            fun _ _ _ _ => (0 : ℝ)))
        0 (fun _ => ⟨id, id, id⟩) 0 [] (fun _ _ _ => 0)) :=
  @c10_attention_weights_unobservable 1 1 1 1 true 0 (fun _ => ⟨id, id, id⟩)
    (fun _ _ _ => 0) none ⟨[], true, some (causalMaskTensor 1)⟩
    (causalMaskTensor 1) rfl (fun _ _ => fun _ _ _ _ => 0)

end LM
